import Mathlib

/-!
A shallow embedding of the streaming chat session engine of the
`ChatInterface` React component (`src/components/chat/ChatInterface.tsx`):
the functions `sendMessage`, `handleSend`, `handleRetry` and
`handleRetryWithDifferentModel`, together with the server-sent-event
processing loop they contain.

Modelling conventions:
- The component state that the engine reads and writes is gathered in
  `ChatState` (`messages`, `inputValue`, `isLoading`, plus the props
  `currentThreadId`, `selectedProvider`, `selectedModel`).
- External callbacks (`onThreadCreated`, `onProviderChange`,
  `onModelChange`) and the destructive error toast are recorded as event
  lists / flags in `SendOutcome` instead of being invoked.
- The network is a parameter: `StreamInput` gives `response.ok`, the
  logical lines obtained from the chunked body after splitting on
  newlines, and how the body ends (`reader.read()` resolving with
  `done = true`, or the fetch/read rejecting, e.g. a dropped connection).
- Each logical line is represented after framing and JSON parsing: a line
  that does not start with the `data: ` marker is `skipped`; a data line
  whose `JSON.parse` throws is `malformed`; otherwise it is `parsed r`
  for a record `r` with the optional fields `content`, `done`,
  `thread_id`, `error`.
- `Date.now()` is passed in as the `now : Nat` parameter; message ids are
  built from it exactly as in the source.
- JavaScript truthiness tests on optional string fields (`data.content`,
  `data.thread_id`, `retryProvider`, ...) are modelled by `truthyS`:
  an absent value and the empty string are falsy.
- `timestamp : Date` fields and UI-only state (`retryingMessageId`,
  scrolling) play no role in any control flow and are omitted.
-/

namespace ChatInterface

/-- JavaScript `String.prototype.trim`: remove whitespace from both ends
of the string. -/
def jsTrim (s : String) : String :=
  String.mk (((s.data.dropWhile Char.isWhitespace).reverse.dropWhile
    Char.isWhitespace).reverse)

/-- JavaScript truthiness of an optional string: `undefined` and `""`
are falsy, every non-empty string is truthy. -/
def truthyS : Option String → Bool
  | none => false
  | some s => !s.isEmpty

/-- Message role, `'user' | 'assistant'`. -/
inductive Role where
  | user
  | assistant
deriving DecidableEq, Repr

/-- The `Message` interface of `ChatInterface.tsx` (the `timestamp: Date`
field is omitted: it never influences control flow). -/
structure Message where
  id : String
  role : Role
  content : String
  isStreaming : Bool
  provider : Option String
  model : Option String
deriving DecidableEq, Repr

/-- A JSON record decoded from a `data: ` line: the optional fields
`content`, `done`, `thread_id` and `error` read by the streaming loop. -/
structure SseRec where
  content : Option String
  done : Bool
  thread_id : Option String
  error : Option String
deriving DecidableEq, Repr

/-- One logical line of the streamed body, after framing and JSON
parsing: `skipped` is a line that does not start with `data: ` (the
`line.startsWith('data: ')` test fails), `malformed` is a data line on
which `JSON.parse(line.slice(6))` throws, and `parsed r` is a data line
decoded to the record `r`. -/
inductive LineData where
  | skipped
  | malformed
  | parsed (r : SseRec)
deriving DecidableEq, Repr

/-- How the streamed body ends: `eof` when `reader.read()` resolves with
`done = true` (clean end of the body), `transportFail` when the fetch or
a read rejects (connection dropped, network error). -/
inductive EndMode where
  | eof
  | transportFail
deriving DecidableEq, Repr

/-- The observable behaviour of one `POST /chat` exchange: whether
`response.ok` held, the logical lines delivered before the body ended,
and how it ended. -/
structure StreamInput where
  ok : Bool
  lines : List LineData
  endMode : EndMode
deriving DecidableEq, Repr

/-- The local state of the streaming loop inside `sendMessage`: the
`messages` state as updated so far, the `fullContent` accumulator, the
local `threadId` variable (initialised from `currentThreadId`), and the
`onThreadCreated` callbacks fired so far (in order). -/
structure LoopState where
  messages : List Message
  fullContent : String
  threadId : Option String
  threadCreated : List String
deriving DecidableEq, Repr

/-- Effect of one successfully parsed record on the loop state
(`ChatInterface.tsx` lines 177-197):
- `if (data.content)`: append the delta to `fullContent` and rewrite the
  placeholder assistant message's content to the new `fullContent`;
- `if (data.done && data.thread_id && !threadId)`: set the local
  `threadId` and fire `onThreadCreated`;
- `if (data.error) { throw new Error(data.error); }`: this `throw` sits
  inside the same `try` whose `catch (parseError)` handles `JSON.parse`
  failures, so it is caught there and only logged — it does not reach the
  outer catch and has no effect on state; the two branches above have
  already run by the time it is thrown. -/
def applyRecord (assistantMessageId : String) (st : LoopState) (r : SseRec) :
    LoopState :=
  let st1 :=
    if truthyS r.content then
      let fc := st.fullContent ++ r.content.getD ""
      { st with
        fullContent := fc
        messages := st.messages.map fun m =>
          if m.id = assistantMessageId then { m with content := fc } else m }
    else st
  if r.done && truthyS r.thread_id && !(truthyS st1.threadId) then
    { st1 with
      threadId := r.thread_id
      threadCreated := st1.threadCreated ++ [r.thread_id.getD ""] }
  else st1

/-- Effect of one logical line on the loop state: non-`data: ` lines are
ignored, a malformed data line is logged and dropped (`catch
(parseError)`), a parsed record is applied. -/
def processLine (assistantMessageId : String) (st : LoopState) :
    LineData → LoopState
  | .skipped => st
  | .malformed => st
  | .parsed r => applyRecord assistantMessageId st r

/-- The streaming read loop: fold `processLine` over the logical lines in
arrival order. -/
def runStream (assistantMessageId : String) (st : LoopState)
    (lines : List LineData) : LoopState :=
  lines.foldl (processLine assistantMessageId) st

/-- The component state read and written by `sendMessage` and the
handlers. -/
structure ChatState where
  messages : List Message
  inputValue : String
  isLoading : Bool
  currentThreadId : Option String
  selectedProvider : String
  selectedModel : String
deriving DecidableEq, Repr

/-- The observable outcome of a call into the engine: the resulting
`messages` and `inputValue` state, whether `isLoading` ended up set,
whether the `POST /chat` request was actually issued, the callbacks fired
(`onThreadCreated`, `onProviderChange`, `onModelChange`, in order), and
whether a destructive error toast was shown. -/
structure SendOutcome where
  messages : List Message
  inputValue : String
  isLoading : Bool
  requestOpened : Bool
  threadCreated : List String
  providerChanges : List String
  modelChanges : List String
  errorReported : Bool
deriving DecidableEq, Repr

/-- Outcome of a call that returns before mutating anything and before
any network request. -/
def noOpOutcome (st : ChatState) : SendOutcome :=
  { messages := st.messages
    inputValue := st.inputValue
    isLoading := st.isLoading
    requestOpened := false
    threadCreated := []
    providerChanges := []
    modelChanges := []
    errorReported := false }

/-- The id `Date.now().toString()` of the user message created by
`sendMessage`. -/
def userIdOf (now : Nat) : String := toString now

/-- The id of the placeholder assistant message created by
`sendMessage`: `Date.now().toString()` with the `_assistant` suffix. -/
def assistantIdOf (now : Nat) : String := toString now ++ "_assistant"

/-- The user `Message` appended by `sendMessage` when not retrying. -/
def userMessageOf (now : Nat) (content : String) : Message :=
  { id := userIdOf now
    role := .user
    content := content
    isStreaming := false
    provider := none
    model := none }

/-- The placeholder assistant `Message` appended by `sendMessage`
(`isStreaming: true`, empty content, tagged with the effective provider
and model). -/
def placeholderOf (now : Nat) (provider model : String) : Message :=
  { id := assistantIdOf now
    role := .assistant
    content := ""
    isStreaming := true
    provider := some provider
    model := some model }

/-- The `sendMessage` function (`ChatInterface.tsx` lines 95-235).

Control flow, in source order:
- `if (!messageContent.trim()) return;`
- missing auth token: destructive toast, return (nothing mutated);
- `setIsLoading(true)`;
- `if (!retryProvider && !retryModel)`: append the user message and clear
  the input;
- append the placeholder assistant message;
- `fetch POST /chat`; `if (!response.ok) throw` — modelled by
  `input.ok = false` taking the catch path;
- read loop: process every delivered line (`runStream`);
- if the body ends cleanly (`eof`): mark the placeholder complete
  (`isStreaming: false`) and, when both `retryProvider` and `retryModel`
  are truthy, fire `onProviderChange` / `onModelChange`;
- if the fetch or a read rejects (`!input.ok` or `transportFail`): the
  catch removes every message whose id is the placeholder's and shows a
  destructive toast;
- `finally`: `setIsLoading(false)`.

`onThreadCreated` callbacks fired during the loop remain fired on every
exit path. -/
def sendMessage (st : ChatState) (hasToken : Bool) (now : Nat)
    (messageContent : String) (retryProvider retryModel : Option String)
    (input : StreamInput) : SendOutcome :=
  if (jsTrim messageContent).isEmpty then noOpOutcome st
  else if !hasToken then
    { noOpOutcome st with errorReported := true }
  else
    let effectiveProvider :=
      if truthyS retryProvider then retryProvider.getD "" else st.selectedProvider
    let effectiveModel :=
      if truthyS retryModel then retryModel.getD "" else st.selectedModel
    let isRetry := truthyS retryProvider || truthyS retryModel
    let msgs0 :=
      if !isRetry then st.messages ++ [userMessageOf now messageContent]
      else st.messages
    let inputValue1 := if !isRetry then "" else st.inputValue
    let aid := assistantIdOf now
    let msgs1 := msgs0 ++ [placeholderOf now effectiveProvider effectiveModel]
    if !input.ok then
      { messages := msgs1.filter fun m => m.id ≠ aid
        inputValue := inputValue1
        isLoading := false
        requestOpened := true
        threadCreated := []
        providerChanges := []
        modelChanges := []
        errorReported := true }
    else
      let ls := runStream aid
        { messages := msgs1
          fullContent := ""
          threadId := st.currentThreadId
          threadCreated := [] } input.lines
      match input.endMode with
      | .transportFail =>
        { messages := ls.messages.filter fun m => m.id ≠ aid
          inputValue := inputValue1
          isLoading := false
          requestOpened := true
          threadCreated := ls.threadCreated
          providerChanges := []
          modelChanges := []
          errorReported := true }
      | .eof =>
        { messages := ls.messages.map fun m =>
            if m.id = aid then { m with isStreaming := false } else m
          inputValue := inputValue1
          isLoading := false
          requestOpened := true
          threadCreated := ls.threadCreated
          providerChanges :=
            if truthyS retryProvider && truthyS retryModel then
              [retryProvider.getD ""] else []
          modelChanges :=
            if truthyS retryProvider && truthyS retryModel then
              [retryModel.getD ""] else []
          errorReported := false }

/-- The `handleSend` handler (`ChatInterface.tsx` lines 237-241):
`if (inputValue.trim() && !isLoading) sendMessage(inputValue.trim())`. -/
def handleSend (st : ChatState) (hasToken : Bool) (now : Nat)
    (input : StreamInput) : SendOutcome :=
  if !(jsTrim st.inputValue).isEmpty && !st.isLoading then
    sendMessage st hasToken now (jsTrim st.inputValue) none none input
  else noOpOutcome st

/-- The `handleRetry` handler (`ChatInterface.tsx` lines 265-280): locate
the target assistant message, require the immediately preceding message
to exist and be a user turn, remove the target, and call `sendMessage`
with the recovered user text and no retry provider/model. (The
`setRetryingMessageId` call only drives a UI spinner and is omitted.)
The `messages[userMessageIndex]` access is in range because
`0 ≤ userMessageIndex < messageIndex`; the unreachable out-of-range case
is mapped to the no-op. -/
def handleRetry (st : ChatState) (hasToken : Bool) (now : Nat)
    (messageId : String) (input : StreamInput) : SendOutcome :=
  match st.messages.findIdx? fun m => m.id = messageId with
  | none => noOpOutcome st
  | some i =>
    if i = 0 then noOpOutcome st
    else
      match st.messages[i - 1]? with
      | none => noOpOutcome st
      | some userMessage =>
        if userMessage.role ≠ .user then noOpOutcome st
        else
          let st1 := { st with
            messages := st.messages.filter fun m => m.id ≠ messageId }
          sendMessage st1 hasToken now userMessage.content none none input

/-- The `handleRetryWithDifferentModel` handler (`ChatInterface.tsx`
lines 282-297): same target/predecessor validation and removal as
`handleRetry`, then `sendMessage` with the recovered user text and the
chosen retry provider and model. -/
def handleRetryWithDifferentModel (st : ChatState) (hasToken : Bool)
    (now : Nat) (messageId : String) (provider model : String)
    (input : StreamInput) : SendOutcome :=
  match st.messages.findIdx? fun m => m.id = messageId with
  | none => noOpOutcome st
  | some i =>
    if i = 0 then noOpOutcome st
    else
      match st.messages[i - 1]? with
      | none => noOpOutcome st
      | some userMessage =>
        if userMessage.role ≠ .user then noOpOutcome st
        else
          let st1 := { st with
            messages := st.messages.filter fun m => m.id ≠ messageId }
          sendMessage st1 hasToken now userMessage.content
            (some provider) (some model) input

/-- Spec-side notion for C1/C8: the `content` field values decoded from
the well-formed `data: ` lines, in arrival order. -/
def deltasOf (lines : List LineData) : List String :=
  lines.filterMap fun ld =>
    match ld with
    | .parsed r => r.content
    | _ => none

/-- Spec-side notion for C1/C8: the concatenation, in arrival order, of
all decoded `content` field values. -/
def concatDeltas (lines : List LineData) : String :=
  (deltasOf lines).foldl (· ++ ·) ""

/-- Whether the exchange completed successfully: `response.ok` held and
the body ended cleanly (so the code after the read loop runs). -/
def generationSucceeded (input : StreamInput) : Bool :=
  input.ok &&
    match input.endMode with
    | .eof => true
    | .transportFail => false


/-- The transcript immediately after `start` (user message appended when
not retrying, then the placeholder assistant message), as a function of
the state and the arguments of `sendMessage`. -/
def preMessages (st : ChatState) (now : Nat) (messageContent : String)
    (retryProvider retryModel : Option String) : List Message :=
  if !(truthyS retryProvider || truthyS retryModel) then
    st.messages ++ [userMessageOf now messageContent]
  else st.messages

/-- The effective provider chosen by `sendMessage`:
`retryProvider || selectedProvider`. -/
def effProvider (st : ChatState) (retryProvider : Option String) : String :=
  if truthyS retryProvider then retryProvider.getD "" else st.selectedProvider

/-- The effective model chosen by `sendMessage`:
`retryModel || selectedModel`. -/
def effModel (st : ChatState) (retryModel : Option String) : String :=
  if truthyS retryModel then retryModel.getD "" else st.selectedModel

/-- The placeholder assistant message with its final streamed content,
marked complete (`isStreaming: false`). -/
def completedAssistant (now : Nat) (provider model content : String) :
    Message :=
  { id := assistantIdOf now
    role := .assistant
    content := content
    isStreaming := false
    provider := some provider
    model := some model }

/-- Whether a logical line is a well-formed `data: ` line (one that
decodes to a record). -/
def isParsed : LineData → Bool
  | .parsed _ => true
  | _ => false

/-- Whether a logical line is a terminal record: `done` true or `error`
set. -/
def isTerminal : LineData → Bool
  | .parsed r => r.done || !r.error.isNone
  | _ => false

/-- A fresh session about to send `"hello"` with provider `openai`,
model `gpt-4` (the sample exchange of the specification). -/
def exState : ChatState :=
  { messages := []
    inputValue := "hello"
    isLoading := false
    currentThreadId := none
    selectedProvider := "openai"
    selectedModel := "gpt-4" }

/-- The sample stream of the specification: `Hi`, ` there`, then a
terminal record carrying `thread_id` `t1`. -/
def exInput : StreamInput :=
  { ok := true
    lines := [.parsed { content := some "Hi", done := false, thread_id := none, error := none },
              .parsed { content := some " there", done := false, thread_id := none, error := none },
              .parsed { content := none, done := true, thread_id := some "t1", error := none }]
    endMode := .eof }

/-- A session with one completed exchange (`user "hello"`, then a
complete assistant answer), used as a retry target. -/
def demoUser : Message :=
  { id := "1"
    role := .user
    content := "hello"
    isStreaming := false
    provider := none
    model := none }

/-- The completed assistant turn of the demo exchange. -/
def demoAssistant : Message :=
  { id := "2"
    role := .assistant
    content := "Hi there"
    isStreaming := false
    provider := some "openai"
    model := some "gpt-4" }

/-- Session state holding the demo exchange. -/
def retryState : ChatState :=
  { messages := [demoUser, demoAssistant]
    inputValue := ""
    isLoading := false
    currentThreadId := some "t1"
    selectedProvider := "openai"
    selectedModel := "gpt-4" }

/-- Session state with a generation in flight (`isLoading` set). -/
def busyState : ChatState :=
  { messages := [demoUser]
    inputValue := "next question"
    isLoading := true
    currentThreadId := some "t1"
    selectedProvider := "openai"
    selectedModel := "gpt-4" }

/-- A stream delivering one content delta and then ending cleanly, with
no terminal record. -/
def noTerminalEofInput : StreamInput :=
  { ok := true
    lines := [.parsed { content := some "Hi", done := false, thread_id := none, error := none }]
    endMode := .eof }

/-- A stream delivering one content delta before the connection drops
(read rejects), with no terminal record. -/
def droppedInput : StreamInput :=
  { ok := true
    lines := [.parsed { content := some "Hi", done := false, thread_id := none, error := none }]
    endMode := .transportFail }

/-- A stream whose first record carries `error`, followed by a further
content delta and a `done` record. -/
def errorMidStreamInput : StreamInput :=
  { ok := true
    lines := [.parsed { content := none, done := false, thread_id := none, error := some "boom" },
              .parsed { content := some "Hi", done := false, thread_id := none, error := none },
              .parsed { content := none, done := true, thread_id := none, error := none }]
    endMode := .eof }

/-- A stream delivering one content delta and ending cleanly (used for
retries). -/
def heyInput : StreamInput :=
  { ok := true
    lines := [.parsed { content := some "Hey", done := false, thread_id := none, error := none }]
    endMode := .eof }

/-- An initial streaming loop state with no thread bound. -/
def exLoop : LoopState :=
  { messages := []
    fullContent := ""
    threadId := none
    threadCreated := [] }

/-- A record carrying a `thread_id` but with `done` false. -/
def threadIdNoDoneRec : SseRec :=
  { content := none
    done := false
    thread_id := some "t9"
    error := none }

theorem map_id_on {α : Type} (f : α → α) :
    ∀ l : List α, (∀ a ∈ l, f a = a) → l.map f = l
  | [], _ => rfl
  | a :: l, h => by
    rw [List.map_cons, h a (List.mem_cons_self a l),
      map_id_on f l fun b hb => h b (List.mem_cons_of_mem a hb)]

theorem getD_empty_of_not_truthy {o : Option String}
    (h : truthyS o = false) : o.getD "" = "" := by
  cases o with
  | none => rfl
  | some s =>
    simp only [truthyS, Bool.not_eq_false'] at h
    simpa using (String.isEmpty_iff s).mp h

theorem applyRecord_fullContent (aid : String) (st : LoopState)
    (r : SseRec) :
    (applyRecord aid st r).fullContent = st.fullContent ++ r.content.getD "" := by
  by_cases h : truthyS r.content
  · simp only [applyRecord, h, if_true]
    split <;> rfl
  · simp only [Bool.not_eq_true] at h
    simp only [applyRecord, h, Bool.false_eq_true, if_false,
      getD_empty_of_not_truthy h, String.append_empty]
    split <;> rfl

theorem applyRecord_messages (aid : String) (st : LoopState) (r : SseRec) :
    (applyRecord aid st r).messages
      = if truthyS r.content then
          st.messages.map fun m =>
            if m.id = aid then { m with content := st.fullContent ++ r.content.getD "" }
            else m
        else st.messages := by
  by_cases h : truthyS r.content
  · simp only [applyRecord, h, if_true]
    split <;> rfl
  · simp only [Bool.not_eq_true] at h
    simp only [applyRecord, h, Bool.false_eq_true, if_false]
    split <;> rfl

theorem processLine_inv (aid : String) (pre : List Message) (a : Message)
    (ha : a.id = aid) (hpre : ∀ m ∈ pre, m.id ≠ aid)
    (st : LoopState) (ld : LineData)
    (hmsg : st.messages = pre ++ [{ a with content := st.fullContent }]) :
    (processLine aid st ld).messages
      = pre ++ [{ a with content := (processLine aid st ld).fullContent }] := by
  cases ld with
  | skipped => simpa [processLine] using hmsg
  | malformed => simpa [processLine] using hmsg
  | parsed r =>
    simp only [processLine, applyRecord_messages, applyRecord_fullContent]
    by_cases h : truthyS r.content
    · simp only [h, if_true, hmsg, List.map_append]
      rw [map_id_on _ pre]
      · simp [ha]
      · intro m hm
        simp [hpre m hm]
    · simp only [h, Bool.false_eq_true, if_false, hmsg,
        getD_empty_of_not_truthy (by simpa using h), String.append_empty]

theorem runStream_cons (aid : String) (st : LoopState) (ld : LineData)
    (rest : List LineData) :
    runStream aid st (ld :: rest) = runStream aid (processLine aid st ld) rest := rfl

theorem foldl_append_acc (xs : List String) :
    ∀ acc : String, xs.foldl (· ++ ·) acc = acc ++ xs.foldl (· ++ ·) "" := by
  induction xs with
  | nil => intro acc; simp [String.append_empty]
  | cons x rest ih =>
    intro acc
    rw [List.foldl_cons, List.foldl_cons, ih (acc ++ x), ih ("" ++ x)]
    have h0 : ("" : String) ++ x = x := rfl
    rw [h0, String.append_assoc]

theorem concatDeltas_cons_skipped (rest : List LineData) :
    concatDeltas (.skipped :: rest) = concatDeltas rest := rfl

theorem concatDeltas_cons_malformed (rest : List LineData) :
    concatDeltas (.malformed :: rest) = concatDeltas rest := rfl

theorem concatDeltas_cons_parsed (r : SseRec) (rest : List LineData) :
    concatDeltas (.parsed r :: rest) = r.content.getD "" ++ concatDeltas rest := by
  cases hc : r.content with
  | none =>
    show concatDeltas (.parsed r :: rest) = "" ++ concatDeltas rest
    simp only [concatDeltas, deltasOf, List.filterMap_cons, hc]
    rfl
  | some c =>
    simp only [concatDeltas, deltasOf, List.filterMap_cons, hc,
      Option.getD_some, List.foldl_cons]
    have h0 : ("" : String) ++ c = c := rfl
    rw [h0]
    exact foldl_append_acc _ c

theorem runStream_fullContent (aid : String) :
    ∀ (lines : List LineData) (st : LoopState),
      (runStream aid st lines).fullContent = st.fullContent ++ concatDeltas lines
  | [], st => by
    show st.fullContent = st.fullContent ++ concatDeltas []
    rw [show concatDeltas [] = "" from rfl, String.append_empty]
  | ld :: rest, st => by
    rw [runStream_cons, runStream_fullContent aid rest]
    cases ld with
    | skipped => rw [concatDeltas_cons_skipped]; rfl
    | malformed => rw [concatDeltas_cons_malformed]; rfl
    | parsed r =>
      rw [concatDeltas_cons_parsed]
      show (applyRecord aid st r).fullContent ++ concatDeltas rest = _
      rw [applyRecord_fullContent, String.append_assoc]

theorem runStream_messages (aid : String) (pre : List Message) (a : Message)
    (ha : a.id = aid) (hpre : ∀ m ∈ pre, m.id ≠ aid) :
    ∀ (lines : List LineData) (st : LoopState),
      st.messages = pre ++ [{ a with content := st.fullContent }] →
      (runStream aid st lines).messages
        = pre ++ [{ a with content := (runStream aid st lines).fullContent }]
  | [], st, hmsg => by simpa [runStream] using hmsg
  | ld :: rest, st, hmsg => by
    rw [runStream_cons]
    exact runStream_messages aid pre a ha hpre rest (processLine aid st ld)
      (processLine_inv aid pre a ha hpre st ld hmsg)
theorem userIdOf_ne_assistantIdOf (now : Nat) :
    userIdOf now ≠ assistantIdOf now := by
  intro h
  have hl := congrArg String.length h
  rw [userIdOf, assistantIdOf, String.length_append,
    show ("_assistant" : String).length = 10 from rfl] at hl
  omega

theorem string_nil_append (s : String) : "" ++ s = s := rfl

theorem preMessages_def (st : ChatState) (now : Nat) (mc : String)
    (rp rm : Option String) :
    (if (!(truthyS rp || truthyS rm)) = true then
       st.messages ++ [userMessageOf now mc]
     else st.messages)
      = preMessages st now mc rp rm := rfl

theorem effProvider_def (st : ChatState) (rp : Option String) :
    (if truthyS rp = true then rp.getD "" else st.selectedProvider)
      = effProvider st rp := rfl

theorem effModel_def (st : ChatState) (rm : Option String) :
    (if truthyS rm = true then rm.getD "" else st.selectedModel)
      = effModel st rm := rfl

theorem preMessages_fresh (st : ChatState) (now : Nat) (mc : String)
    (rp rm : Option String)
    (hfresh : ∀ m ∈ st.messages, m.id ≠ assistantIdOf now) :
    ∀ m ∈ preMessages st now mc rp rm, m.id ≠ assistantIdOf now := by
  intro m hm
  unfold preMessages at hm
  split at hm
  · rcases List.mem_append.mp hm with h | h
    · exact hfresh m h
    · rw [List.mem_singleton.mp h]
      exact userIdOf_ne_assistantIdOf now
  · exact hfresh m hm

theorem sendMessage_eof (st : ChatState) (now : Nat) (mc : String)
    (rp rm : Option String) (input : StreamInput)
    (hmc : (jsTrim mc).isEmpty = false)
    (hok : input.ok = true) (heof : input.endMode = .eof)
    (hfresh : ∀ m ∈ preMessages st now mc rp rm, m.id ≠ assistantIdOf now) :
    (sendMessage st true now mc rp rm input).messages
      = preMessages st now mc rp rm
        ++ [completedAssistant now (effProvider st rp) (effModel st rm)
              (concatDeltas input.lines)]
    ∧ (sendMessage st true now mc rp rm input).errorReported = false := by
  obtain ⟨ok, lines, em⟩ := input
  dsimp only at hok heof
  subst hok
  subst heof
  have hrun := runStream_messages (assistantIdOf now)
    (preMessages st now mc rp rm)
    (placeholderOf now (effProvider st rp) (effModel st rm))
    rfl hfresh lines
    { messages := preMessages st now mc rp rm
        ++ [placeholderOf now (effProvider st rp) (effModel st rm)]
      fullContent := ""
      threadId := st.currentThreadId
      threadCreated := [] }
    rfl
  have hfc := runStream_fullContent (assistantIdOf now) lines
    { messages := preMessages st now mc rp rm
        ++ [placeholderOf now (effProvider st rp) (effModel st rm)]
      fullContent := ""
      threadId := st.currentThreadId
      threadCreated := [] }
  simp only [sendMessage, hmc, Bool.false_eq_true, if_false, Bool.not_true]
  simp only [preMessages_def, effProvider_def, effModel_def]
  refine ⟨?_, trivial⟩
  rw [hrun, List.map_append]
  have hpre : List.map
      (fun m => if m.id = assistantIdOf now then { m with isStreaming := false } else m)
      (preMessages st now mc rp rm) = preMessages st now mc rp rm := by
    refine map_id_on _ _ fun m hm => ?_
    rw [if_neg (hfresh m hm)]
  rw [hpre]
  congr 1
  rw [hfc]
  simp [placeholderOf, completedAssistant, string_nil_append]
theorem filter_fresh (aid : String) (pre : List Message) (a : Message)
    (ha : a.id = aid) (hpre : ∀ m ∈ pre, m.id ≠ aid) :
    (pre ++ [a]).filter (fun m => m.id ≠ aid) = pre := by
  rw [List.filter_append, List.filter_eq_self.mpr]
  · simp [ha]
  · intro m hm
    simpa using hpre m hm

theorem sendMessage_fail (st : ChatState) (now : Nat) (mc : String)
    (rp rm : Option String) (input : StreamInput)
    (hmc : (jsTrim mc).isEmpty = false)
    (hfail : generationSucceeded input = false)
    (hfresh : ∀ m ∈ preMessages st now mc rp rm, m.id ≠ assistantIdOf now) :
    (sendMessage st true now mc rp rm input).messages
      = preMessages st now mc rp rm
    ∧ (sendMessage st true now mc rp rm input).errorReported = true := by
  obtain ⟨ok, lines, em⟩ := input
  cases ok with
  | false =>
    simp only [sendMessage, hmc, Bool.false_eq_true, if_false, Bool.not_true,
      Bool.not_false, if_true]
    simp only [preMessages_def, effProvider_def, effModel_def]
    exact ⟨filter_fresh _ _ _ rfl hfresh, trivial⟩
  | true =>
    cases em with
    | eof => simp [generationSucceeded] at hfail
    | transportFail =>
      have hrun := runStream_messages (assistantIdOf now)
        (preMessages st now mc rp rm)
        (placeholderOf now (effProvider st rp) (effModel st rm))
        rfl hfresh lines
        { messages := preMessages st now mc rp rm
            ++ [placeholderOf now (effProvider st rp) (effModel st rm)]
          fullContent := ""
          threadId := st.currentThreadId
          threadCreated := [] }
        rfl
      simp only [sendMessage, hmc, Bool.false_eq_true, if_false, Bool.not_true]
      simp only [preMessages_def, effProvider_def, effModel_def]
      refine ⟨?_, trivial⟩
      rw [hrun]
      exact filter_fresh _ _ _ rfl hfresh

theorem sendMessage_changes (st : ChatState) (now : Nat) (mc : String)
    (rp rm : Option String) (input : StreamInput)
    (hmc : (jsTrim mc).isEmpty = false) :
    (sendMessage st true now mc rp rm input).providerChanges
      = (if (generationSucceeded input && (truthyS rp && truthyS rm)) = true
         then [rp.getD ""] else [])
    ∧ (sendMessage st true now mc rp rm input).modelChanges
      = (if (generationSucceeded input && (truthyS rp && truthyS rm)) = true
         then [rm.getD ""] else []) := by
  obtain ⟨ok, lines, em⟩ := input
  cases ok <;> cases em <;>
    simp [sendMessage, hmc, generationSucceeded]

theorem runStream_malformed_mid (aid : String) (st : LoopState)
    (l1 l2 : List LineData) :
    runStream aid st (l1 ++ LineData.malformed :: l2)
      = runStream aid st (l1 ++ l2) := by
  unfold runStream
  rw [List.foldl_append, List.foldl_append, List.foldl_cons]
  rfl

theorem applyRecord_threadId (aid : String) (st : LoopState) (r : SseRec) :
    (applyRecord aid st r).threadId
      = if (r.done && truthyS r.thread_id && !(truthyS st.threadId)) = true
        then r.thread_id else st.threadId := by
  by_cases h : truthyS r.content
  · simp only [applyRecord, h, if_true]
    split <;> rfl
  · simp only [Bool.not_eq_true] at h
    simp only [applyRecord, h, Bool.false_eq_true, if_false]
    split <;> rfl

theorem applyRecord_threadCreated (aid : String) (st : LoopState)
    (r : SseRec) :
    (applyRecord aid st r).threadCreated
      = if (r.done && truthyS r.thread_id && !(truthyS st.threadId)) = true
        then st.threadCreated ++ [r.thread_id.getD ""] else st.threadCreated := by
  by_cases h : truthyS r.content
  · simp only [applyRecord, h, if_true]
    split <;> rfl
  · simp only [Bool.not_eq_true] at h
    simp only [applyRecord, h, Bool.false_eq_true, if_false]
    split <;> rfl

theorem findIdx?_target (p : Message → Bool) (u a : Message)
    (hu : p u = false) (ha : p a = true) :
    ∀ (pre : List Message), (∀ m ∈ pre, p m = false) →
    ∀ i : Nat, List.findIdx? p (pre ++ [u, a]) i = some (i + pre.length + 1)
  | [], _, i => by
    simp only [List.nil_append, List.findIdx?_cons, hu, Bool.false_eq_true,
      if_false, ha, if_true, List.findIdx?_cons]
    simp
  | m :: pre, hpre, i => by
    rw [List.cons_append, List.findIdx?_cons,
      if_neg (by simp [hpre m (List.mem_cons_self m pre)]),
      findIdx?_target p u a hu ha pre
        (fun x hx => hpre x (List.mem_cons_of_mem m hx)) (i + 1)]
    simp only [List.length_cons]
    congr 1
    omega

theorem getElem?_mid (pre : List Message) (u a : Message) :
    (pre ++ [u, a])[pre.length]? = some u := by
  rw [show pre ++ [u, a] = (pre ++ [u]) ++ [a] by simp]
  rw [List.getElem?_append_left (by simp)]
  exact List.getElem?_concat_length pre u

theorem filter_removes_last (pre : List Message) (u a : Message)
    (hpre : ∀ m ∈ pre, m.id ≠ a.id) (hu : u.id ≠ a.id) :
    (pre ++ [u, a]).filter (fun m => m.id ≠ a.id) = pre ++ [u] := by
  rw [show pre ++ [u, a] = (pre ++ [u]) ++ [a] by simp]
  refine filter_fresh a.id (pre ++ [u]) a rfl ?_
  intro m hm
  rcases List.mem_append.mp hm with h | h
  · exact hpre m h
  · rw [List.mem_singleton.mp h]
    exact hu

theorem sendMessage_fresh_eof (st : ChatState) (now : Nat)
    (mc : String) (input : StreamInput)
    (hmc : (jsTrim mc).isEmpty = false)
    (hok : input.ok = true) (heof : input.endMode = .eof)
    (hfresh : ∀ m ∈ st.messages, m.id ≠ assistantIdOf now) :
    (sendMessage st true now mc none none input).messages
      = st.messages ++ [userMessageOf now mc]
        ++ [completedAssistant now st.selectedProvider st.selectedModel
              (concatDeltas input.lines)] := by
  have h := (sendMessage_eof st now mc none none input hmc hok heof
    (preMessages_fresh st now mc none none hfresh)).1
  rw [h]
  simp [preMessages, effProvider, effModel, truthyS]

/-- C1: For every generation whose stream consists of well-formed `data: `
lines, the final content of the assistant message equals the
concatenation, in arrival order, of all `content` field values decoded
from those lines, with no reordering and no deduplication. -/
theorem c1_final_content_is_concat_of_deltas (st : ChatState) (now : Nat)
    (mc : String) (input : StreamInput)
    (hmc : (jsTrim mc).isEmpty = false)
    (hok : input.ok = true) (heof : input.endMode = .eof)
    (hwf : ∀ ld ∈ input.lines, isParsed ld = true)
    (hfresh : ∀ m ∈ st.messages, m.id ≠ assistantIdOf now) :
    (sendMessage st true now mc none none input).messages
      = st.messages ++ [userMessageOf now mc]
        ++ [completedAssistant now st.selectedProvider st.selectedModel
              (concatDeltas input.lines)] :=
  sendMessage_fresh_eof st now mc input hmc hok heof hfresh

/-- C1 witness: the specification's sample exchange, evaluated. -/
theorem c1_witness :
    (jsTrim "hello").isEmpty = false
    ∧ (sendMessage exState true 0 "hello" none none exInput).messages
      = exState.messages ++ [userMessageOf 0 "hello"]
        ++ [completedAssistant 0 exState.selectedProvider
              exState.selectedModel (concatDeltas exInput.lines)] :=
  ⟨by decide,
   c1_final_content_is_concat_of_deltas exState 0 "hello" exInput
     (by decide) rfl rfl (by decide) (by decide)⟩

/-- C8: For every stream containing a malformed `data: ` line interleaved
between well-formed lines, decoding continues past the malformed line
without terminating the stream (the outcome is identical to the stream
with the malformed line deleted, whatever way the body ends), and the
final assistant message content equals the concatenation of the deltas
from the well-formed lines alone. -/
theorem c8_malformed_line_is_skipped (st : ChatState) (now : Nat)
    (mc : String) (l1 l2 : List LineData) (em : EndMode)
    (hmc : (jsTrim mc).isEmpty = false)
    (hwf1 : ∀ ld ∈ l1, isParsed ld = true)
    (hwf2 : ∀ ld ∈ l2, isParsed ld = true)
    (hfresh : ∀ m ∈ st.messages, m.id ≠ assistantIdOf now) :
    sendMessage st true now mc none none
        { ok := true, lines := l1 ++ LineData.malformed :: l2, endMode := em }
      = sendMessage st true now mc none none
        { ok := true, lines := l1 ++ l2, endMode := em }
    ∧ (sendMessage st true now mc none none
        { ok := true, lines := l1 ++ l2, endMode := EndMode.eof }).messages
      = st.messages ++ [userMessageOf now mc]
        ++ [completedAssistant now st.selectedProvider st.selectedModel
              (concatDeltas (l1 ++ l2))] := by
  constructor
  · simp only [sendMessage, hmc, Bool.false_eq_true, if_false]
    rw [runStream_malformed_mid]
  · exact sendMessage_fresh_eof st now mc
      { ok := true, lines := l1 ++ l2, endMode := EndMode.eof }
      hmc rfl rfl hfresh

/-- C8 witness: a malformed line between the two deltas of the sample
exchange changes nothing. -/
theorem c8_witness :
    sendMessage exState true 0 "hello" none none
        { ok := true
          lines := [LineData.parsed { content := some "Hi", done := false, thread_id := none, error := none }]
            ++ LineData.malformed
              :: [LineData.parsed { content := some " there", done := false, thread_id := none, error := none }]
          endMode := EndMode.eof }
      = sendMessage exState true 0 "hello" none none
        { ok := true
          lines := [LineData.parsed { content := some "Hi", done := false, thread_id := none, error := none }]
            ++ [LineData.parsed { content := some " there", done := false, thread_id := none, error := none }]
          endMode := EndMode.eof }
    ∧ (sendMessage exState true 0 "hello" none none
        { ok := true
          lines := [LineData.parsed { content := some "Hi", done := false, thread_id := none, error := none }]
            ++ [LineData.parsed { content := some " there", done := false, thread_id := none, error := none }]
          endMode := EndMode.eof }).messages
      = exState.messages ++ [userMessageOf 0 "hello"]
        ++ [completedAssistant 0 exState.selectedProvider exState.selectedModel
              (concatDeltas ([LineData.parsed { content := some "Hi", done := false, thread_id := none, error := none }]
                ++ [LineData.parsed { content := some " there", done := false, thread_id := none, error := none }]))] :=
  c8_malformed_line_is_skipped exState 0 "hello"
    [LineData.parsed { content := some "Hi", done := false, thread_id := none, error := none }]
    [LineData.parsed { content := some " there", done := false, thread_id := none, error := none }]
    EndMode.eof (by decide) (by decide) (by decide) (by decide)

/-- C2 counterexample: the stream delivers `data: ("content":"Hi")` and then
the body ends cleanly with no `done`/`error` record; contrary to the
claim, the placeholder assistant message is not removed and no failure is
reported: it stays in the transcript, marked complete. -/
theorem c2_counterexample :
    (sendMessage exState true 0 "hello" none none noTerminalEofInput).messages
      = [userMessageOf 0 "hello", completedAssistant 0 "openai" "gpt-4" "Hi"]
    ∧ (sendMessage exState true 0 "hello" none none noTerminalEofInput).errorReported
      = false := by
  decide

/-- C2 (amended): when the byte stream ends by a transport error (fetch or
read rejection) without a terminal record having been decoded, the
outcome is an implicit failure: the placeholder assistant message is
removed (the user turn remains) and a failure is reported. When the byte
stream instead ends cleanly (EOF) without a terminal record, the
assistant message is kept and marked complete, and no failure is
reported. -/
theorem c2_amended_end_without_terminal (st : ChatState) (now : Nat)
    (mc : String) (input : StreamInput)
    (hmc : (jsTrim mc).isEmpty = false)
    (hok : input.ok = true)
    (hterm : ∀ ld ∈ input.lines, isTerminal ld = false)
    (hfresh : ∀ m ∈ st.messages, m.id ≠ assistantIdOf now) :
    (input.endMode = .transportFail →
      (sendMessage st true now mc none none input).messages
        = st.messages ++ [userMessageOf now mc]
      ∧ (sendMessage st true now mc none none input).errorReported = true)
    ∧ (input.endMode = .eof →
      (sendMessage st true now mc none none input).messages
        = st.messages ++ [userMessageOf now mc]
          ++ [completedAssistant now st.selectedProvider st.selectedModel
                (concatDeltas input.lines)]
      ∧ (sendMessage st true now mc none none input).errorReported = false) := by
  constructor
  · intro hend
    have hfail : generationSucceeded input = false := by
      simp [generationSucceeded, hend]
    have h := sendMessage_fail st now mc none none input hmc hfail
      (preMessages_fresh st now mc none none hfresh)
    refine ⟨?_, h.2⟩
    rw [h.1]
    simp [preMessages, truthyS]
  · intro hend
    refine ⟨sendMessage_fresh_eof st now mc input hmc hok hend hfresh, ?_⟩
    exact (sendMessage_eof st now mc none none input hmc hok hend
      (preMessages_fresh st now mc none none hfresh)).2

/-- C2 witness: a connection dropped after one delta with no terminal
record: the user turn remains alone and the failure is reported. -/
theorem c2_witness :
    (sendMessage exState true 0 "hello" none none droppedInput).messages
      = exState.messages ++ [userMessageOf 0 "hello"]
    ∧ (sendMessage exState true 0 "hello" none none droppedInput).errorReported
      = true :=
  (c2_amended_end_without_terminal exState 0 "hello" droppedInput
    (by decide) rfl (by decide) (by decide)).1 rfl

/-- C3 (code behaviour at the failing input): a decoded record with
`error` set is thrown inside the `try` whose `catch (parseError)` handles
`JSON.parse` failures, so it is swallowed: the stream is not terminated (a
later content delta is still applied), the placeholder assistant message
is kept and marked complete, and no error is surfaced to the caller —
contradicting both the claim and the evident intent of
`throw new Error(data.error)`. -/
theorem c3_error_record_swallowed :
    (sendMessage exState true 0 "hello" none none errorMidStreamInput).messages
      = [userMessageOf 0 "hello", completedAssistant 0 "openai" "gpt-4" "Hi"]
    ∧ (sendMessage exState true 0 "hello" none none errorMidStreamInput).errorReported
      = false := by
  decide

/-- C4 (code behaviour at the failing input): a same-model retry of the
completed demo exchange calls `sendMessage` with no retry provider/model,
so the `Add user message if not retrying` branch fires and appends a
duplicate user turn: the transcript ends up with two consecutive user
turns for the same exchange, violating the claimed invariant. -/
theorem c4_same_model_retry_duplicates_user_turn :
    (handleRetry retryState true 7 "2" heyInput).messages
      = [demoUser, userMessageOf 7 "hello",
         completedAssistant 7 "openai" "gpt-4" "Hey"]
    ∧ (handleRetry retryState true 7 "2" heyInput).messages.map Message.role
      = [Role.user, Role.user, Role.assistant] := by
  decide

/-- C5: For every generation that ends in Failure, exactly the
placeholder assistant message is removed from the transcript: the user's
message remains, no message with `isStreaming = true` remains, the
transcript length is exactly one less than immediately after start, and
all other messages are unchanged. -/
theorem c5_failure_removes_exactly_placeholder (st : ChatState) (now : Nat)
    (mc : String) (input : StreamInput)
    (hmc : (jsTrim mc).isEmpty = false)
    (hfail : generationSucceeded input = false)
    (hfresh : ∀ m ∈ st.messages, m.id ≠ assistantIdOf now)
    (hnostream : ∀ m ∈ st.messages, m.isStreaming = false) :
    (sendMessage st true now mc none none input).messages
      = st.messages ++ [userMessageOf now mc]
    ∧ (sendMessage st true now mc none none input).messages.length + 1
      = (st.messages ++ [userMessageOf now mc,
          placeholderOf now st.selectedProvider st.selectedModel]).length
    ∧ (∀ m ∈ (sendMessage st true now mc none none input).messages,
        m.isStreaming = false)
    ∧ (sendMessage st true now mc none none input).errorReported = true := by
  have h := sendMessage_fail st now mc none none input hmc hfail
    (preMessages_fresh st now mc none none hfresh)
  have hpre : preMessages st now mc none none
      = st.messages ++ [userMessageOf now mc] := by
    simp [preMessages, truthyS]
  refine ⟨by rw [h.1, hpre], ?_, ?_, h.2⟩
  · rw [h.1, hpre]
    simp
  · intro m hm
    rw [h.1, hpre] at hm
    rcases List.mem_append.mp hm with h1 | h1
    · exact hnostream m h1
    · rw [List.mem_singleton.mp h1]
      rfl

/-- C5 witness: the dropped-connection exchange from the fresh session. -/
theorem c5_witness :
    (sendMessage exState true 0 "hello" none none droppedInput).messages.length + 1
      = (exState.messages ++ [userMessageOf 0 "hello",
          placeholderOf 0 exState.selectedProvider exState.selectedModel]).length
    ∧ ∀ m ∈ (sendMessage exState true 0 "hello" none none droppedInput).messages,
        m.isStreaming = false :=
  ⟨(c5_failure_removes_exactly_placeholder exState 0 "hello" droppedInput
      (by decide) (by decide) (by decide) (by decide)).2.1,
   (c5_failure_removes_exactly_placeholder exState 0 "hello" droppedInput
      (by decide) (by decide) (by decide) (by decide)).2.2.1⟩

/-- C6: a call to start (the `handleSend` entry point) while a generation
is active, or with input that is empty after trimming, is rejected
synchronously: no network request is made and the state, in particular
the transcript, is byte-for-byte unchanged. -/
theorem c6_start_rejected (st : ChatState) (hasToken : Bool) (now : Nat)
    (input : StreamInput)
    (h : st.isLoading = true ∨ (jsTrim st.inputValue).isEmpty = true) :
    handleSend st hasToken now input = noOpOutcome st
    ∧ (handleSend st hasToken now input).messages = st.messages
    ∧ (handleSend st hasToken now input).requestOpened = false := by
  have hno : handleSend st hasToken now input = noOpOutcome st := by
    rcases h with h | h
    · simp [handleSend, h]
    · simp [handleSend, h]
  exact ⟨hno, by rw [hno]; rfl, by rw [hno]; rfl⟩

/-- C6 witness: a send attempted while a generation is in flight. -/
theorem c6_witness :
    busyState.isLoading = true
    ∧ handleSend busyState true 0 heyInput = noOpOutcome busyState
    ∧ (handleSend busyState true 0 heyInput).messages = busyState.messages
    ∧ (handleSend busyState true 0 heyInput).requestOpened = false := by
  have h := c6_start_rejected busyState true 0 heyInput (Or.inl (by decide))
  exact ⟨by decide, h.1, h.2.1, h.2.2⟩

/-- C7: a retry against a different provider/model updates the session's
default provider and model selection (the `onProviderChange` /
`onModelChange` callbacks fire) exactly when the new generation completes
successfully; when it fails, the selection is left unchanged. -/
theorem c7_divert_updates_selection_iff_success (st : ChatState)
    (now : Nat) (messageId provider model : String) (input : StreamInput)
    (i : Nat) (u : Message)
    (hfind : st.messages.findIdx? (fun m => m.id = messageId) = some i)
    (hi : i ≠ 0)
    (hget : st.messages[i - 1]? = some u)
    (hrole : u.role = Role.user)
    (hcontent : (jsTrim u.content).isEmpty = false)
    (hp : provider.isEmpty = false) (hm : model.isEmpty = false) :
    (handleRetryWithDifferentModel st true now messageId provider model
        input).providerChanges
      = (if generationSucceeded input = true then [provider] else [])
    ∧ (handleRetryWithDifferentModel st true now messageId provider model
        input).modelChanges
      = (if generationSucceeded input = true then [model] else []) := by
  have h := sendMessage_changes
    { st with messages := st.messages.filter fun m => m.id ≠ messageId }
    now u.content (some provider) (some model) input hcontent
  simp only [handleRetryWithDifferentModel, hfind]
  rw [if_neg hi]
  simp only [hget]
  rw [if_neg (by simp [hrole])]
  rw [h.1, h.2]
  constructor <;> simp [truthyS, hp, hm]

/-- C7 witness: diverting the demo exchange to `anthropic` /
`claude-3-haiku`; with a successful stream the callbacks fire. -/
theorem c7_witness :
    (handleRetryWithDifferentModel retryState true 7 "2" "anthropic"
        "claude-3-haiku" heyInput).providerChanges
      = (if generationSucceeded heyInput = true then ["anthropic"] else [])
    ∧ (handleRetryWithDifferentModel retryState true 7 "2" "anthropic"
        "claude-3-haiku" heyInput).modelChanges
      = (if generationSucceeded heyInput = true then ["claude-3-haiku"] else []) :=
  c7_divert_updates_selection_iff_success retryState 7 "2" "anthropic"
    "claude-3-haiku" heyInput 1 demoUser (by decide) (by decide) (by decide)
    (by decide) (by decide) (by decide) (by decide)

/-- C9: when a retry against a different provider/model fails, the
originally produced assistant message (removed at retry start) is not
restored: the transcript ends with the user turn, and contains neither
the original assistant message nor a new assistant message. -/
theorem c9_failed_divert_restores_nothing (pre : List Message)
    (u a : Message) (st : ChatState) (now : Nat)
    (provider model : String) (input : StreamInput)
    (hst : st.messages = pre ++ [u, a])
    (hrole : u.role = Role.user)
    (hcontent : (jsTrim u.content).isEmpty = false)
    (hp : provider.isEmpty = false) (hm : model.isEmpty = false)
    (hfail : generationSucceeded input = false)
    (hpreid : ∀ m ∈ pre, m.id ≠ a.id) (hua : u.id ≠ a.id)
    (hprefresh : ∀ m ∈ pre, m.id ≠ assistantIdOf now)
    (hufresh : u.id ≠ assistantIdOf now) :
    (handleRetryWithDifferentModel st true now a.id provider model
        input).messages = pre ++ [u]
    ∧ (handleRetryWithDifferentModel st true now a.id provider model
        input).messages.getLast? = some u
    ∧ a ∉ (handleRetryWithDifferentModel st true now a.id provider model
        input).messages := by
  have hfind : st.messages.findIdx? (fun m => m.id = a.id) = some (pre.length + 1) := by
    rw [hst]
    have := findIdx?_target (fun m => m.id = a.id) u a
      (by simp [hua]) (by simp) pre (fun m hm => by simp [hpreid m hm]) 0
    simpa using this
  have hget : st.messages[pre.length + 1 - 1]? = some u := by
    rw [hst]
    simpa using getElem?_mid pre u a
  have hfilter : st.messages.filter (fun m => m.id ≠ a.id) = pre ++ [u] := by
    rw [hst]
    exact filter_removes_last pre u a hpreid hua
  have hpre1 : preMessages { st with messages := pre ++ [u] } now u.content
      (some provider) (some model) = pre ++ [u] := by
    simp [preMessages, truthyS, hp]
  have hfresh1 : ∀ m ∈ preMessages { st with messages := pre ++ [u] } now
      u.content (some provider) (some model), m.id ≠ assistantIdOf now := by
    rw [hpre1]
    intro m hm
    rcases List.mem_append.mp hm with h1 | h1
    · exact hprefresh m h1
    · rw [List.mem_singleton.mp h1]
      exact hufresh
  have h := sendMessage_fail { st with messages := pre ++ [u] } now u.content
    (some provider) (some model) input hcontent hfail hfresh1
  simp only [handleRetryWithDifferentModel, hfind]
  rw [if_neg (Nat.succ_ne_zero pre.length)]
  simp only [hget]
  rw [if_neg (by simp [hrole])]
  rw [hfilter]
  refine ⟨by rw [h.1, hpre1], by rw [h.1, hpre1]; exact List.getLast?_concat _, ?_⟩
  rw [h.1, hpre1]
  intro hmem
  rcases List.mem_append.mp hmem with h1 | h1
  · exact absurd rfl (hpreid a h1)
  · rw [List.mem_singleton.mp h1] at hua
    exact hua rfl

/-- C9 witness: the demo exchange diverted to another model over a
dropped connection. -/
theorem c9_witness :
    (handleRetryWithDifferentModel retryState true 7 demoAssistant.id
        "anthropic" "claude-3-haiku" droppedInput).messages
      = [] ++ [demoUser]
    ∧ demoAssistant ∉ (handleRetryWithDifferentModel retryState true 7
        demoAssistant.id "anthropic" "claude-3-haiku" droppedInput).messages :=
  ⟨(c9_failed_divert_restores_nothing [] demoUser demoAssistant retryState 7
      "anthropic" "claude-3-haiku" droppedInput rfl (by decide) (by decide)
      (by decide) (by decide) (by decide) (by decide) (by decide) (by decide)
      (by decide)).1,
   (c9_failed_divert_restores_nothing [] demoUser demoAssistant retryState 7
      "anthropic" "claude-3-haiku" droppedInput rfl (by decide) (by decide)
      (by decide) (by decide) (by decide) (by decide) (by decide) (by decide)
      (by decide)).2.2⟩

/-- C10: a decoded record carrying a `thread_id` whose `done` field is
absent or false binds nothing: the loop's thread identifier is unchanged
and no thread-created notification fires; and whenever the thread
identifier or the notification list does change, the record had `done`
true with a truthy `thread_id` and the session had no truthy thread
identifier yet. -/
theorem c10_thread_binding_only_on_done (aid : String) (st : LoopState)
    (r : SseRec) :
    (r.done = false →
      (applyRecord aid st r).threadId = st.threadId
      ∧ (applyRecord aid st r).threadCreated = st.threadCreated)
    ∧ (((applyRecord aid st r).threadId ≠ st.threadId
        ∨ (applyRecord aid st r).threadCreated ≠ st.threadCreated) →
      r.done = true ∧ truthyS r.thread_id = true
        ∧ truthyS st.threadId = false) := by
  constructor
  · intro hdone
    rw [applyRecord_threadId, applyRecord_threadCreated]
    simp [hdone]
  · intro hne
    by_cases hc : (r.done && truthyS r.thread_id && !(truthyS st.threadId)) = true
    · have h1 := hc
      simp only [Bool.and_eq_true, Bool.not_eq_true'] at h1
      exact ⟨h1.1.1, h1.1.2, h1.2⟩
    · exfalso
      rw [applyRecord_threadId, applyRecord_threadCreated] at hne
      rcases hne with h | h <;> simp [hc] at h

/-- C10 witness: a record with `thread_id` `t9` but `done` false leaves
the loop state unbound and fires nothing. -/
theorem c10_witness :
    threadIdNoDoneRec.done = false
    ∧ (applyRecord "a" exLoop threadIdNoDoneRec).threadId = exLoop.threadId
    ∧ (applyRecord "a" exLoop threadIdNoDoneRec).threadCreated
      = exLoop.threadCreated :=
  ⟨rfl,
   ((c10_thread_binding_only_on_done "a" exLoop threadIdNoDoneRec).1 rfl).1,
   ((c10_thread_binding_only_on_done "a" exLoop threadIdNoDoneRec).1 rfl).2⟩

end ChatInterface
